import Mathlib

/-!
# OS-package vulnerability matchers (Alpine and Ubuntu)

A shallow embedding of `pkg/scanner/ospkg/alpine/alpine.go` and
`pkg/scanner/ospkg/ubuntu/ubuntu.go`.

* Go strings are embedded as Lean strings.  The only byte the code looks for is
  the ASCII dot, which never occurs inside a multi-byte UTF-8 sequence, so
  counting, indexing and slicing by character yields the same prefix as the
  byte-wise Go operations.
* `time.Time` is embedded as the number of nanoseconds since the Unix epoch
  (wall clock, UTC); `Before` is `<` on that number.
* Logging calls have no effect on the results and are left out.
* The advisory store (`alpine.Get`, `ubuntu.Get`), the version libraries
  (`go-rpm-version`, `go-deb-version`) and the version formatting helpers
  (`utils.FormatVersion`, `utils.FormatSrcVersion`) live outside these two
  files; they are parameters of the embedding.
* A Go result `([]DetectedVulnerability, error)` is the pair of the slice
  (nil is the empty list) and the optional error.
-/

set_option autoImplicit false

namespace Trivy

/-! ## Data model -/

/-- The fields of `analyzer.Package` the matchers read directly; the version
fields are only read through the formatting helpers. -/
structure Package where
  Name : String
  SrcName : String
  Version : String
  deriving DecidableEq, Repr

/-- An advisory as returned by the advisory store. -/
structure Advisory where
  VulnerabilityID : String
  FixedVersion : String
  deriving DecidableEq, Repr

/-- The record `vulnerability.DetectedVulnerability`. -/
structure DetectedVulnerability where
  VulnerabilityID : String
  PkgName : String
  InstalledVersion : String
  FixedVersion : String
  deriving DecidableEq, Repr

/-- The advisory store: `Get(osVer, pkgName)` gives the advisories or an error. -/
abbrev Store := String → String → Except String (List Advisory)

/-- The Go return value `([]DetectedVulnerability, error)`. -/
abbrev DetectResult := List DetectedVulnerability × Option String

/-! ## Strings -/

/-- The Go call `strings.Count(s, ".")` for a one-character separator. -/
def Count (s : String) (c : Char) : Nat := s.data.count c

/-- Position of the last occurrence of `c`, if any. -/
def lastIdx? (c : Char) : List Char → Option Nat
  | [] => none
  | x :: xs =>
    match lastIdx? c xs with
    | some i => some (i + 1)
    | none => if x = c then some 0 else none

/-- The Go call `strings.LastIndex(s, ".")`: `-1` when there is no occurrence. -/
def LastIndex (s : String) (c : Char) : Int :=
  match lastIdx? c s.data with
  | some i => (i : Int)
  | none => -1

/-- The Go slice expression `s[:n]`. -/
def sliceUpTo (s : String) (n : Int) : String := ⟨s.data.take n.toNat⟩

/-- The release truncation at the head of the Alpine `Detect` and
`isSupportedVersion`:
`if strings.Count(osVer, ".") > 1 { osVer = osVer[:strings.LastIndex(osVer, ".")] }`. -/
def truncateRelease (osVer : String) : String :=
  if Count osVer '.' > 1 then sliceUpTo osVer (LastIndex osVer '.') else osVer

/-- Dot-separated segments of a string, as `strings.Split` gives them. -/
def splitOnChar (c : Char) : List Char → List (List Char)
  | [] => [[]]
  | x :: xs =>
    if x = c then [] :: splitOnChar c xs
    else
      match splitOnChar c xs with
      | [] => [[x]]
      | seg :: segs => (x :: seg) :: segs

/-- Segments joined by a separator, as `strings.Join` gives them. -/
def joinWith (c : Char) : List (List Char) → List Char
  | [] => []
  | [s] => s
  | s :: t :: rest => s ++ c :: joinWith c (t :: rest)

/-! ## Time -/

/-- An instant: nanoseconds since the Unix epoch. -/
abbrev Time := Int

/-- Days from 1970-01-01 to the given proleptic Gregorian date (years from 1). -/
def daysFromCivil (y m d : Int) : Int :=
  let y1 := if m ≤ 2 then y - 1 else y
  let era := y1 / 400
  let yoe := y1 - era * 400
  let mp := (m + 9) % 12
  let doy := (153 * mp + 2) / 5 + d - 1
  let doe := yoe * 365 + yoe / 4 - yoe / 100 + doy
  era * 146097 + doe - 719468

/-- The Go call `time.Date(y, m, d, hh, mm, ss, ns, time.UTC)` for in-range fields. -/
def Date (y m d hh mm ss ns : Int) : Time :=
  (((daysFromCivil y m d * 24 + hh) * 60 + mm) * 60 + ss) * 1000000000 + ns

/-- The Go method `t.Before(u)`. -/
def Before (t u : Time) : Bool := decide (t < u)

/-- One second, in nanoseconds. -/
def second : Int := 1000000000

/-! ## The Alpine matcher (`pkg/scanner/ospkg/alpine/alpine.go`) -/

namespace Alpine

/-- The collaborators of the Alpine matcher: `go-rpm-version` (whose
`NewVersion` returns a version and no error) and `utils.FormatVersion`. -/
structure Deps where
  Version : Type
  NewVersion : String → Version
  LessThan : Version → Version → Bool
  FormatVersion : Package → String

/-- The map `eolDates` of `alpine.go`. -/
def eolDates : List (String × Time) :=
  [
    ("2.0", Date 2012 4 1 23 59 59 0),
    ("2.1", Date 2012 11 1 23 59 59 0),
    ("2.2", Date 2013 5 1 23 59 59 0),
    ("2.3", Date 2013 11 1 23 59 59 0),
    ("2.4", Date 2014 5 1 23 59 59 0),
    ("2.5", Date 2014 11 1 23 59 59 0),
    ("2.6", Date 2015 5 1 23 59 59 0),
    ("2.7", Date 2015 11 1 23 59 59 0),
    ("3.0", Date 2016 5 1 23 59 59 0),
    ("3.1", Date 2016 11 1 23 59 59 0),
    ("3.2", Date 2017 5 1 23 59 59 0),
    ("3.3", Date 2017 11 1 23 59 59 0),
    ("3.4", Date 2018 5 1 23 59 59 0),
    ("3.5", Date 2018 11 1 23 59 59 0),
    ("3.6", Date 2019 5 1 23 59 59 0),
    ("3.7", Date 2019 11 1 23 59 59 0),
    ("3.8", Date 2020 5 1 23 59 59 0),
    ("3.9", Date 2020 11 1 23 59 59 0),
    ("3.10", Date 2021 5 1 23 59 59 0)
  ]

/-- The inner loop of `Detect`: `for _, adv := range advisories`. -/
def advisoryLoop (d : Deps) (pkg : Package) (installed : String) (installedVersion : d.Version) :
    List Advisory → List DetectedVulnerability → List DetectedVulnerability
  | [], vulns => vulns
  | adv :: rest, vulns =>
    let fixedVersion := d.NewVersion adv.FixedVersion
    if d.LessThan installedVersion fixedVersion then
      advisoryLoop d pkg installed installedVersion rest
        (vulns ++ [{ VulnerabilityID := adv.VulnerabilityID, PkgName := pkg.Name,
                     InstalledVersion := installed, FixedVersion := adv.FixedVersion }])
    else
      advisoryLoop d pkg installed installedVersion rest vulns

/-- The outer loop of `Detect`: `for _, pkg := range pkgs`, with the early
`return nil, err` on a failed lookup. -/
def packageLoop (d : Deps) (Get : Store) (osVer : String) :
    List Package → List DetectedVulnerability → DetectResult
  | [], vulns => (vulns, none)
  | pkg :: rest, vulns =>
    match Get osVer pkg.Name with
    | .error err => ([], some ("failed to get alpine advisories: " ++ err))
    | .ok advisories =>
      let installed := d.FormatVersion pkg
      let installedVersion := d.NewVersion installed
      packageLoop d Get osVer rest
        (advisoryLoop d pkg installed installedVersion advisories vulns)

/-- The method `Scanner.Detect` of `alpine.go`. -/
def Detect (d : Deps) (Get : Store) (osVer : String) (pkgs : List Package) : DetectResult :=
  packageLoop d Get (truncateRelease osVer) pkgs []

/-- The method `Scanner.isSupportedVersion` of `alpine.go`. -/
def isSupportedVersion (now : Time) (osFamily osVer : String) : Bool :=
  let _ := osFamily
  let osVer := truncateRelease osVer
  match eolDates.lookup osVer with
  | none => false
  | some eol => Before now eol

end Alpine

/-! ## The Ubuntu matcher (`pkg/scanner/ospkg/ubuntu/ubuntu.go`) -/

namespace Ubuntu

/-- The collaborators of the Ubuntu matcher: `go-deb-version` (whose
`NewVersion` returns a version or an error) and `utils.FormatSrcVersion`. -/
structure Deps where
  Version : Type
  NewVersion : String → Except String Version
  LessThan : Version → Version → Bool
  FormatSrcVersion : Package → String

/-- The map `eolDates` of `ubuntu.go`. -/
def eolDates : List (String × Time) :=
  [
    ("4.10", Date 2006 4 30 23 59 59 0),
    ("5.04", Date 2006 10 31 23 59 59 0),
    ("5.10", Date 2007 4 13 23 59 59 0),
    ("6.06", Date 2011 6 1 23 59 59 0),
    ("6.10", Date 2008 4 25 23 59 59 0),
    ("7.04", Date 2008 10 19 23 59 59 0),
    ("7.10", Date 2009 4 18 23 59 59 0),
    ("8.04", Date 2013 5 9 23 59 59 0),
    ("8.10", Date 2010 4 30 23 59 59 0),
    ("9.04", Date 2010 10 23 23 59 59 0),
    ("9.10", Date 2011 4 29 23 59 59 0),
    ("10.04", Date 2015 4 29 23 59 59 0),
    ("10.10", Date 2012 4 10 23 59 59 0),
    ("11.04", Date 2012 10 28 23 59 59 0),
    ("11.10", Date 2013 5 9 23 59 59 0),
    ("12.04", Date 2019 4 26 23 59 59 0),
    ("12.10", Date 2014 5 16 23 59 59 0),
    ("13.04", Date 2014 1 27 23 59 59 0),
    ("13.10", Date 2014 7 17 23 59 59 0),
    ("14.04", Date 2022 4 25 23 59 59 0),
    ("14.10", Date 2015 7 23 23 59 59 0),
    ("15.04", Date 2016 1 23 23 59 59 0),
    ("15.10", Date 2016 7 22 23 59 59 0),
    ("16.04", Date 2024 4 21 23 59 59 0),
    ("16.10", Date 2017 7 20 23 59 59 0),
    ("17.04", Date 2018 1 13 23 59 59 0),
    ("17.10", Date 2018 7 19 23 59 59 0),
    ("18.04", Date 2028 4 26 23 59 59 0),
    ("18.10", Date 2019 7 18 23 59 59 0),
    ("19.04", Date 2020 1 18 23 59 59 0),
    ("19.10", Date 2020 7 17 23 59 59 0)
  ]

/-- The inner loop of `Detect`: `for _, adv := range advisories`. -/
def advisoryLoop (d : Deps) (pkg : Package) (installed : String) (installedVersion : d.Version) :
    List Advisory → List DetectedVulnerability → List DetectedVulnerability
  | [], vulns => vulns
  | adv :: rest, vulns =>
    let vuln : DetectedVulnerability :=
      { VulnerabilityID := adv.VulnerabilityID, PkgName := pkg.Name,
        InstalledVersion := installed, FixedVersion := adv.FixedVersion }
    if adv.FixedVersion = "" then
      advisoryLoop d pkg installed installedVersion rest (vulns ++ [vuln])
    else
      match d.NewVersion adv.FixedVersion with
      | .error _ => advisoryLoop d pkg installed installedVersion rest vulns
      | .ok fixedVersion =>
        if d.LessThan installedVersion fixedVersion then
          advisoryLoop d pkg installed installedVersion rest (vulns ++ [vuln])
        else
          advisoryLoop d pkg installed installedVersion rest vulns

/-- The outer loop of `Detect`: `for _, pkg := range pkgs`, with the early
`return nil, err` on a failed lookup and `continue` on an installed version
that does not parse. -/
def packageLoop (d : Deps) (Get : Store) (osVer : String) :
    List Package → List DetectedVulnerability → DetectResult
  | [], vulns => (vulns, none)
  | pkg :: rest, vulns =>
    match Get osVer pkg.SrcName with
    | .error err => ([], some ("failed to get Ubuntu advisories: " ++ err))
    | .ok advisories =>
      let installed := d.FormatSrcVersion pkg
      match d.NewVersion installed with
      | .error _ => packageLoop d Get osVer rest vulns
      | .ok installedVersion =>
        packageLoop d Get osVer rest
          (advisoryLoop d pkg installed installedVersion advisories vulns)

/-- The method `Scanner.Detect` of `ubuntu.go`. -/
def Detect (d : Deps) (Get : Store) (osVer : String) (pkgs : List Package) : DetectResult :=
  packageLoop d Get osVer pkgs []

/-- The method `Scanner.isSupportedVersion` of `ubuntu.go`. -/
def isSupportedVersion (now : Time) (osFamily osVer : String) : Bool :=
  let _ := osFamily
  match eolDates.lookup osVer with
  | none => false
  | some eol => Before now eol

end Ubuntu

/-! ## Sample collaborators

Small instances of the external collaborators, used to run the matchers on
concrete inputs. -/

namespace Sample

/-- The runs of decimal digits of a string, read as numbers. -/
def readNumbers : List Char → Option Nat → List Nat
  | [], none => []
  | [], some n => [n]
  | c :: cs, cur =>
    if c.isDigit then readNumbers cs (some (cur.getD 0 * 10 + (c.toNat - 48)))
    else
      match cur with
      | none => readNumbers cs none
      | some n => n :: readNumbers cs none

/-- Lexicographic strict order on number lists. -/
def lexLt : List Nat → List Nat → Bool
  | [], [] => false
  | [], _ :: _ => true
  | _ :: _, [] => false
  | a :: as, b :: bs => if a < b then true else if b < a then false else lexLt as bs

/-- A package's version field, used as the formatted version. -/
def format (p : Package) : String := p.Version

/-- A total comparator in the style of `go-rpm-version`. -/
def rpm : Alpine.Deps where
  Version := List Nat
  NewVersion := fun s => readNumbers s.data none
  LessThan := lexLt
  FormatVersion := format

/-- A comparator in the style of `go-deb-version`: a version must start with a digit. -/
def deb : Ubuntu.Deps where
  Version := List Nat
  NewVersion := fun s =>
    match s.data with
    | [] => .error "upstream_version is empty"
    | c :: _ =>
      if c.isDigit then .ok (readNumbers s.data none)
      else .error "upstream_version must start with digit"
  LessThan := lexLt
  FormatSrcVersion := format

/-- A store that knows one package and answers every other key with no advisory. -/
def store (advs : List Advisory) : Store :=
  fun _ name => if name = "openssl" then .ok advs else .ok []

/-- A store that agrees with `store` at release `3.10` and package `openssl`
and fails at every other key. -/
def narrowStore (advs : List Advisory) : Store :=
  fun osVer name =>
    if osVer = "3.10" ∧ name = "openssl" then .ok advs else .error "no such key"

/-- A store whose lookup fails for the package `broken`. -/
def failingStore (advs : List Advisory) : Store :=
  fun _ name => if name = "broken" then .error "db closed" else .ok advs

/-- A package with an advisory in the sample store. -/
def openssl : Package := ⟨"openssl", "openssl", "1.2.3-r0"⟩

/-- A binary package of the source package `openssl`. -/
def libssl : Package := ⟨"libssl1.1", "openssl", "1.1.1-1ubuntu2"⟩

/-- A package whose version string does not start with a digit. -/
def garbled : Package := ⟨"garbled", "openssl", "abc"⟩

/-- A package whose lookup fails in `failingStore`. -/
def broken : Package := ⟨"broken", "broken", "1.0"⟩

/-- The package `openssl` at the version that fixes the sample advisory. -/
def patched : Package := ⟨"openssl", "openssl", "1.2.4-r0"⟩

/-- The package `openssl` with a version string that does not start with a digit. -/
def malformed : Package := ⟨"openssl", "openssl", "abc"⟩

/-- A package without advisories in the sample store. -/
def zlib : Package := ⟨"zlib", "zlib", "1.2.11-r1"⟩

/-- Another package without advisories in the sample store. -/
def curl : Package := ⟨"curl", "curl", "7.66.0-r0"⟩

end Sample

/-! ## Specification-side definitions -/

/-- The advisories the store returns for a key; none when the lookup fails. -/
def advisoriesOf (Get : Store) (osVer name : String) : List Advisory :=
  match Get osVer name with
  | .ok advs => advs
  | .error _ => []

/-- Every lookup at the given release and names succeeds. -/
def LookupsSucceed (Get : Store) (osVer : String) (names : List String) : Prop :=
  ∀ n ∈ names, ∃ advs, Get osVer n = .ok advs

/-- Some lookup at the given release and names fails. -/
def LookupFails (Get : Store) (osVer : String) (names : List String) : Prop :=
  ∃ n ∈ names, ∃ err, Get osVer n = .error err

/-- The output record for a package, its formatted installed version and an advisory. -/
def record (pkg : Package) (installed : String) (adv : Advisory) : DetectedVulnerability :=
  { VulnerabilityID := adv.VulnerabilityID, PkgName := pkg.Name,
    InstalledVersion := installed, FixedVersion := adv.FixedVersion }

/-- Alpine: the advisory is determined vulnerable when installed is less than fixed. -/
def Alpine.vulnerable (d : Alpine.Deps) (pkg : Package) (adv : Advisory) : Bool :=
  d.LessThan (d.NewVersion (d.FormatVersion pkg)) (d.NewVersion adv.FixedVersion)

/-- Alpine: the block of records of one package, in the store's advisory order. -/
def Alpine.block (d : Alpine.Deps) (pkg : Package) (advs : List Advisory) :
    List DetectedVulnerability :=
  (advs.filter (Alpine.vulnerable d pkg)).map (record pkg (d.FormatVersion pkg))

/-- The parse gave a version and no error. -/
def isOk {α : Type} : Except String α → Bool
  | .ok _ => true
  | .error _ => false

/-- Both parses gave a version and the first is less than the second. -/
def lessOk {α : Type} (lt : α → α → Bool) : Except String α → Except String α → Bool
  | .ok i, .ok f => lt i f
  | _, _ => false

/-- Ubuntu: the version string parses. -/
def Ubuntu.parses (d : Ubuntu.Deps) (s : String) : Bool := isOk (d.NewVersion s)

/-- Ubuntu: installed is less than fixed, both parsing. -/
def Ubuntu.less (d : Ubuntu.Deps) (installed fixed : String) : Bool :=
  lessOk d.LessThan (d.NewVersion installed) (d.NewVersion fixed)

/-- Ubuntu: the advisory is determined vulnerable when the installed version
parses and either fixed is empty or fixed parses and installed is less than fixed. -/
def Ubuntu.vulnerable (d : Ubuntu.Deps) (pkg : Package) (adv : Advisory) : Bool :=
  Ubuntu.parses d (d.FormatSrcVersion pkg) &&
    (decide (adv.FixedVersion = "") ||
      Ubuntu.less d (d.FormatSrcVersion pkg) adv.FixedVersion)

/-- Ubuntu: the block of records of one package, in the store's advisory order. -/
def Ubuntu.block (d : Ubuntu.Deps) (pkg : Package) (advs : List Advisory) :
    List DetectedVulnerability :=
  (advs.filter (Ubuntu.vulnerable d pkg)).map (record pkg (d.FormatSrcVersion pkg))

/-- Ubuntu: the advisory has a non-empty fixed version that does not parse. -/
def Ubuntu.unparsableFix (d : Ubuntu.Deps) (a : Advisory) : Bool :=
  !decide (a.FixedVersion = "") && !Ubuntu.parses d a.FixedVersion

/-- The store with every advisory whose non-empty fixed version does not parse
removed from its answers. -/
def Ubuntu.withoutUnparsableFixes (d : Ubuntu.Deps) (Get : Store) : Store :=
  fun osVer name =>
    match Get osVer name with
    | .ok advs => .ok (advs.filter (fun a => !Ubuntu.unparsableFix d a))
    | .error err => .error err

/-- The call returned no error. -/
def succeeds (r : DetectResult) : Prop := r.2 = none

/-- The call returned an error. -/
def fails (r : DetectResult) : Prop := r.2 ≠ none

/-! ## The loops in closed form -/

theorem alpine_advisoryLoop_eq (d : Alpine.Deps) (pkg : Package) (advs : List Advisory)
    (vulns : List DetectedVulnerability) :
    Alpine.advisoryLoop d pkg (d.FormatVersion pkg) (d.NewVersion (d.FormatVersion pkg))
      advs vulns = vulns ++ Alpine.block d pkg advs := by
  induction advs generalizing vulns with
  | nil => simp [Alpine.advisoryLoop, Alpine.block]
  | cons adv rest ih =>
    unfold Alpine.advisoryLoop
    by_cases h : d.LessThan (d.NewVersion (d.FormatVersion pkg))
        (d.NewVersion adv.FixedVersion) = true
    · simp only [h, if_true, ih]
      simp [Alpine.block, Alpine.vulnerable, h, record, List.filter_cons]
    · simp only [h, ih]
      simp [Alpine.block, Alpine.vulnerable, h, List.filter_cons]

theorem alpine_packageLoop_ok (d : Alpine.Deps) (Get : Store) (osVer : String)
    (pkgs : List Package) (vulns : List DetectedVulnerability)
    (h : LookupsSucceed Get osVer (pkgs.map (·.Name))) :
    Alpine.packageLoop d Get osVer pkgs vulns =
      (vulns ++ pkgs.flatMap (fun p => Alpine.block d p (advisoriesOf Get osVer p.Name)),
        none) := by
  induction pkgs generalizing vulns with
  | nil => simp [Alpine.packageLoop]
  | cons pkg rest ih =>
    obtain ⟨advs, hadvs⟩ := h pkg.Name (by simp)
    have hrest : LookupsSucceed Get osVer (rest.map (·.Name)) := by
      intro n hn
      exact h n (by simp only [List.map_cons, List.mem_cons]; exact Or.inr hn)
    unfold Alpine.packageLoop
    simp only [hadvs]
    rw [ih _ hrest, alpine_advisoryLoop_eq]
    simp [advisoriesOf, hadvs, List.append_assoc]

theorem alpine_packageLoop_error (d : Alpine.Deps) (Get : Store) (osVer : String)
    (pkgs : List Package) (vulns : List DetectedVulnerability)
    (h : LookupFails Get osVer (pkgs.map (·.Name))) :
    ∃ msg, Alpine.packageLoop d Get osVer pkgs vulns = ([], some msg) := by
  induction pkgs generalizing vulns with
  | nil =>
    obtain ⟨n, hn, _⟩ := h
    simp at hn
  | cons pkg rest ih =>
    unfold Alpine.packageLoop
    cases hg : Get osVer pkg.Name with
    | error err => exact ⟨_, rfl⟩
    | ok advs =>
      simp only
      apply ih
      obtain ⟨n, hn, err, herr⟩ := h
      simp only [List.map_cons, List.mem_cons] at hn
      rcases hn with hn | hn
      · subst hn
        rw [hg] at herr
        cases herr
      · exact ⟨n, hn, err, herr⟩

theorem ubuntu_block_of_not_parses (d : Ubuntu.Deps) (pkg : Package) (advs : List Advisory)
    (h : Ubuntu.parses d (d.FormatSrcVersion pkg) = false) :
    Ubuntu.block d pkg advs = [] := by
  simp [Ubuntu.block, Ubuntu.vulnerable, h]

theorem ubuntu_advisoryLoop_eq (d : Ubuntu.Deps) (pkg : Package) (iv : d.Version)
    (hiv : d.NewVersion (d.FormatSrcVersion pkg) = .ok iv) (advs : List Advisory)
    (vulns : List DetectedVulnerability) :
    Ubuntu.advisoryLoop d pkg (d.FormatSrcVersion pkg) iv advs vulns =
      vulns ++ Ubuntu.block d pkg advs := by
  have hp : Ubuntu.parses d (d.FormatSrcVersion pkg) = true := by
    simp [Ubuntu.parses, isOk, hiv]
  induction advs generalizing vulns with
  | nil => simp [Ubuntu.advisoryLoop, Ubuntu.block]
  | cons adv rest ih =>
    unfold Ubuntu.advisoryLoop
    by_cases he : adv.FixedVersion = ""
    · simp only [he, if_true, ih]
      simp [Ubuntu.block, Ubuntu.vulnerable, hp, he, record, List.filter_cons]
    · simp only [he, if_false]
      cases hf : d.NewVersion adv.FixedVersion with
      | error err =>
        simp only [ih]
        simp [Ubuntu.block, Ubuntu.vulnerable, Ubuntu.less, lessOk, hp, he, hiv, hf, List.filter_cons]
      | ok fv =>
        by_cases hl : d.LessThan iv fv = true
        · simp only [hl, if_true, ih]
          simp [Ubuntu.block, Ubuntu.vulnerable, Ubuntu.less, lessOk, hp, he, hiv, hf, hl, record,
            List.filter_cons]
        · simp only [hl, ih]
          simp [Ubuntu.block, Ubuntu.vulnerable, Ubuntu.less, lessOk, hp, he, hiv, hf, hl,
            List.filter_cons]

theorem ubuntu_packageLoop_ok (d : Ubuntu.Deps) (Get : Store) (osVer : String)
    (pkgs : List Package) (vulns : List DetectedVulnerability)
    (h : LookupsSucceed Get osVer (pkgs.map (·.SrcName))) :
    Ubuntu.packageLoop d Get osVer pkgs vulns =
      (vulns ++ pkgs.flatMap (fun p => Ubuntu.block d p (advisoriesOf Get osVer p.SrcName)),
        none) := by
  induction pkgs generalizing vulns with
  | nil => simp [Ubuntu.packageLoop]
  | cons pkg rest ih =>
    obtain ⟨advs, hadvs⟩ := h pkg.SrcName (by simp)
    have hrest : LookupsSucceed Get osVer (rest.map (·.SrcName)) := by
      intro n hn
      exact h n (by simp only [List.map_cons, List.mem_cons]; exact Or.inr hn)
    unfold Ubuntu.packageLoop
    simp only [hadvs]
    cases hiv : d.NewVersion (d.FormatSrcVersion pkg) with
    | error err =>
      simp only
      rw [ih _ hrest]
      have hp : Ubuntu.parses d (d.FormatSrcVersion pkg) = false := by
        simp [Ubuntu.parses, isOk, hiv]
      simp [ubuntu_block_of_not_parses d pkg _ hp]
    | ok iv =>
      simp only
      rw [ih _ hrest, ubuntu_advisoryLoop_eq d pkg iv hiv]
      simp [advisoriesOf, hadvs, List.append_assoc]

theorem ubuntu_packageLoop_error (d : Ubuntu.Deps) (Get : Store) (osVer : String)
    (pkgs : List Package) (vulns : List DetectedVulnerability)
    (h : LookupFails Get osVer (pkgs.map (·.SrcName))) :
    ∃ msg, Ubuntu.packageLoop d Get osVer pkgs vulns = ([], some msg) := by
  induction pkgs generalizing vulns with
  | nil =>
    obtain ⟨n, hn, _⟩ := h
    simp at hn
  | cons pkg rest ih =>
    unfold Ubuntu.packageLoop
    cases hg : Get osVer pkg.SrcName with
    | error err => exact ⟨_, rfl⟩
    | ok advs =>
      have hrest : LookupFails Get osVer (rest.map (·.SrcName)) := by
        obtain ⟨n, hn, err, herr⟩ := h
        simp only [List.map_cons, List.mem_cons] at hn
        rcases hn with hn | hn
        · subst hn
          rw [hg] at herr
          cases herr
        · exact ⟨n, hn, err, herr⟩
      simp only
      cases d.NewVersion (d.FormatSrcVersion pkg) with
      | error err => exact ih _ hrest
      | ok iv => exact ih _ hrest

/-! ## Release truncation -/

theorem lastIdx?_of_not_mem (c : Char) (l : List Char) (h : c ∉ l) : lastIdx? c l = none := by
  induction l with
  | nil => rfl
  | cons x xs ih =>
    simp only [List.mem_cons, not_or] at h
    have hx : ¬ x = c := fun e => h.1 e.symm
    simp [lastIdx?, ih h.2, hx]

theorem lastIdx?_of_mem (c : Char) (l : List Char) (h : c ∈ l) :
    ∃ pre seg, l = pre ++ c :: seg ∧ c ∉ seg ∧ lastIdx? c l = some pre.length := by
  induction l with
  | nil => simp at h
  | cons x xs ih =>
    by_cases hc : c ∈ xs
    · obtain ⟨pre, seg, hl, hseg, hidx⟩ := ih hc
      refine ⟨x :: pre, seg, by simp [hl], hseg, ?_⟩
      simp [lastIdx?, hidx]
    · have hx : x = c := by
        simp only [List.mem_cons] at h
        rcases h with h | h
        · exact h.symm
        · exact absurd h hc
      refine ⟨[], xs, by simp [hx], hc, ?_⟩
      simp [lastIdx?, lastIdx?_of_not_mem c xs hc, hx]

theorem truncateRelease_of_le (s : String) (h : Count s '.' ≤ 1) : truncateRelease s = s := by
  unfold truncateRelease
  rw [if_neg (by omega)]

theorem truncateRelease_of_lt (s : String) (h : 1 < Count s '.') :
    ∃ pre seg : List Char,
      s.data = pre ++ '.' :: seg ∧ '.' ∉ seg ∧ truncateRelease s = ⟨pre⟩ := by
  have hmem : '.' ∈ s.data := by
    apply List.count_pos_iff.mp
    unfold Count at h
    omega
  obtain ⟨pre, seg, hl, hseg, hidx⟩ := lastIdx?_of_mem '.' s.data hmem
  refine ⟨pre, seg, hl, hseg, ?_⟩
  unfold truncateRelease
  rw [if_pos h]
  simp only [sliceUpTo, LastIndex, hidx, Int.toNat_ofNat]
  rw [hl]
  simp

theorem splitOnChar_ne_nil (c : Char) (l : List Char) : splitOnChar c l ≠ [] := by
  cases l with
  | nil => simp [splitOnChar]
  | cons x xs =>
    unfold splitOnChar
    split
    · simp
    · split <;> simp

theorem splitOnChar_of_not_mem (c : Char) (l : List Char) (h : c ∉ l) :
    splitOnChar c l = [l] := by
  induction l with
  | nil => rfl
  | cons x xs ih =>
    simp only [List.mem_cons, not_or] at h
    have hx : ¬ x = c := fun e => h.1 e.symm
    simp [splitOnChar, ih h.2, hx]

theorem splitOnChar_append (c : Char) (pre rest : List Char) :
    splitOnChar c (pre ++ c :: rest) = splitOnChar c pre ++ splitOnChar c rest := by
  induction pre with
  | nil => simp [splitOnChar]
  | cons x xs ih =>
    by_cases hx : x = c
    · simp [splitOnChar, hx, ih]
    · have hstep : ∀ t, splitOnChar c (x :: t) =
          (match splitOnChar c t with
            | [] => [[x]]
            | seg :: segs => (x :: seg) :: segs) := by
        intro t
        simp [splitOnChar, hx]
      rw [List.cons_append, hstep, hstep, ih]
      cases hs : splitOnChar c xs with
      | nil => exact absurd hs (splitOnChar_ne_nil c xs)
      | cons seg segs => simp

theorem joinWith_splitOnChar (c : Char) (l : List Char) :
    joinWith c (splitOnChar c l) = l := by
  induction l with
  | nil => rfl
  | cons x xs ih =>
    by_cases hx : x = c
    · simp only [splitOnChar, hx, if_true]
      cases hs : splitOnChar c xs with
      | nil => exact absurd hs (splitOnChar_ne_nil c xs)
      | cons seg segs =>
        rw [hs] at ih
        simp [joinWith, ih]
    · simp only [splitOnChar, hx, if_false]
      cases hs : splitOnChar c xs with
      | nil => exact absurd hs (splitOnChar_ne_nil c xs)
      | cons seg segs =>
        rw [hs] at ih
        cases segs with
        | nil =>
          simp only [joinWith] at ih ⊢
          rw [ih]
        | cons t rest =>
          simp only [joinWith] at ih ⊢
          rw [← ih]
          simp

theorem length_splitOnChar (c : Char) (l : List Char) :
    (splitOnChar c l).length = l.count c + 1 := by
  induction l with
  | nil => rfl
  | cons x xs ih =>
    by_cases hx : x = c
    · simp [splitOnChar, hx, ih]
    · simp only [splitOnChar, hx, if_false]
      cases hs : splitOnChar c xs with
      | nil => exact absurd hs (splitOnChar_ne_nil c xs)
      | cons seg segs =>
        rw [hs] at ih
        have hne : (x == c) = false := by simpa using hx
        simp only [List.length_cons] at ih ⊢
        rw [List.count_cons, hne]
        simpa using ih

theorem truncateRelease_segments (s : String) (h : 1 < Count s '.') :
    (truncateRelease s).data = joinWith '.' (splitOnChar '.' s.data).dropLast := by
  obtain ⟨pre, seg, hl, hseg, ht⟩ := truncateRelease_of_lt s h
  rw [ht, hl, splitOnChar_append, splitOnChar_of_not_mem '.' seg hseg, List.dropLast_concat,
    joinWith_splitOnChar]

/-! ## Membership in the output -/

theorem Sample.store_succeeds (advs : List Advisory) (osVer : String) (names : List String) :
    LookupsSucceed (Sample.store advs) osVer names := by
  intro n _
  unfold Sample.store
  split
  · exact ⟨_, rfl⟩
  · exact ⟨_, rfl⟩

theorem alpine_mem_block_iff (d : Alpine.Deps) (pkg : Package) (advs : List Advisory)
    (r : DetectedVulnerability) :
    r ∈ Alpine.block d pkg advs ↔
      ∃ a ∈ advs, Alpine.vulnerable d pkg a = true ∧ record pkg (d.FormatVersion pkg) a = r := by
  simp only [Alpine.block, List.mem_map, List.mem_filter]
  constructor
  · rintro ⟨a, ⟨ha, hv⟩, hr⟩
    exact ⟨a, ha, hv, hr⟩
  · rintro ⟨a, ha, hv, hr⟩
    exact ⟨a, ⟨ha, hv⟩, hr⟩

theorem ubuntu_mem_block_iff (d : Ubuntu.Deps) (pkg : Package) (advs : List Advisory)
    (r : DetectedVulnerability) :
    r ∈ Ubuntu.block d pkg advs ↔
      ∃ a ∈ advs, Ubuntu.vulnerable d pkg a = true ∧
        record pkg (d.FormatSrcVersion pkg) a = r := by
  simp only [Ubuntu.block, List.mem_map, List.mem_filter]
  constructor
  · rintro ⟨a, ⟨ha, hv⟩, hr⟩
    exact ⟨a, ha, hv, hr⟩
  · rintro ⟨a, ha, hv, hr⟩
    exact ⟨a, ⟨ha, hv⟩, hr⟩

theorem alpine_record_mem_detect (d : Alpine.Deps) (Get : Store) (osVer : String)
    (pkgs : List Package) (p : Package) (a : Advisory)
    (h : LookupsSucceed Get (truncateRelease osVer) (pkgs.map (·.Name)))
    (hp : p ∈ pkgs) (ha : a ∈ advisoriesOf Get (truncateRelease osVer) p.Name) :
    record p (d.FormatVersion p) a ∈ (Alpine.Detect d Get osVer pkgs).1 ↔
      Alpine.vulnerable d p a = true := by
  unfold Alpine.Detect
  rw [alpine_packageLoop_ok d Get _ pkgs [] h]
  simp only [List.nil_append, List.mem_flatMap, alpine_mem_block_iff]
  constructor
  · rintro ⟨q, _, b, _, hv, hr⟩
    simp only [record, DetectedVulnerability.mk.injEq] at hr
    obtain ⟨_, _, hi, hf⟩ := hr
    simp only [Alpine.vulnerable] at hv ⊢
    rw [← hi, ← hf]
    exact hv
  · intro hv
    exact ⟨p, hp, a, ha, hv, rfl⟩

theorem ubuntu_record_mem_detect (d : Ubuntu.Deps) (Get : Store) (osVer : String)
    (pkgs : List Package) (p : Package) (a : Advisory)
    (h : LookupsSucceed Get osVer (pkgs.map (·.SrcName)))
    (hp : p ∈ pkgs) (ha : a ∈ advisoriesOf Get osVer p.SrcName) :
    record p (d.FormatSrcVersion p) a ∈ (Ubuntu.Detect d Get osVer pkgs).1 ↔
      Ubuntu.vulnerable d p a = true := by
  unfold Ubuntu.Detect
  rw [ubuntu_packageLoop_ok d Get _ pkgs [] h]
  simp only [List.nil_append, List.mem_flatMap, ubuntu_mem_block_iff]
  constructor
  · rintro ⟨q, _, b, _, hv, hr⟩
    simp only [record, DetectedVulnerability.mk.injEq] at hr
    obtain ⟨_, _, hi, hf⟩ := hr
    simp only [Ubuntu.vulnerable, Ubuntu.less] at hv ⊢
    rw [← hi, ← hf]
    exact hv
  · intro hv
    exact ⟨p, hp, a, ha, hv, rfl⟩

theorem Sample.lexLt_irrefl (v : List Nat) : Sample.lexLt v v = false := by
  induction v with
  | nil => rfl
  | cons a as ih => simp [Sample.lexLt, ih]

theorem ubuntu_flatMap_filter_parses (d : Ubuntu.Deps) (Get : Store) (osVer : String)
    (pkgs : List Package) :
    (pkgs.filter (fun p => Ubuntu.parses d (d.FormatSrcVersion p))).flatMap
        (fun p => Ubuntu.block d p (advisoriesOf Get osVer p.SrcName)) =
      pkgs.flatMap (fun p => Ubuntu.block d p (advisoriesOf Get osVer p.SrcName)) := by
  induction pkgs with
  | nil => rfl
  | cons p rest ih =>
    cases hp : Ubuntu.parses d (d.FormatSrcVersion p) with
    | false =>
      rw [List.filter_cons_of_neg (by simp [hp]), ih, List.flatMap_cons,
        ubuntu_block_of_not_parses d p _ hp, List.nil_append]
    | true =>
      rw [List.filter_cons_of_pos (by simp [hp]), List.flatMap_cons, List.flatMap_cons, ih]

theorem LookupsSucceed.filter (Get : Store) (osVer : String) (f : Package → String)
    (q : Package → Bool) (pkgs : List Package)
    (h : LookupsSucceed Get osVer (pkgs.map f)) :
    LookupsSucceed Get osVer ((pkgs.filter q).map f) := by
  intro n hn
  apply h n
  simp only [List.mem_map, List.mem_filter] at hn ⊢
  obtain ⟨p, ⟨hp, _⟩, hf⟩ := hn
  exact ⟨p, hp, hf⟩

theorem alpine_packageLoop_congr (d : Alpine.Deps) (G1 G2 : Store) (osVer : String)
    (pkgs : List Package) (vulns : List DetectedVulnerability)
    (h : ∀ p ∈ pkgs, G1 osVer p.Name = G2 osVer p.Name) :
    Alpine.packageLoop d G1 osVer pkgs vulns = Alpine.packageLoop d G2 osVer pkgs vulns := by
  induction pkgs generalizing vulns with
  | nil => rfl
  | cons pkg rest ih =>
    have hrest : ∀ p ∈ rest, G1 osVer p.Name = G2 osVer p.Name :=
      fun p hp => h p (List.mem_cons_of_mem _ hp)
    unfold Alpine.packageLoop
    rw [← h pkg (List.mem_cons_self _ _)]
    cases G1 osVer pkg.Name with
    | error err => rfl
    | ok advs => exact ih _ hrest

theorem ubuntu_packageLoop_congr (d : Ubuntu.Deps) (G1 G2 : Store) (osVer : String)
    (pkgs : List Package) (vulns : List DetectedVulnerability)
    (h : ∀ p ∈ pkgs, G1 osVer p.SrcName = G2 osVer p.SrcName) :
    Ubuntu.packageLoop d G1 osVer pkgs vulns = Ubuntu.packageLoop d G2 osVer pkgs vulns := by
  induction pkgs generalizing vulns with
  | nil => rfl
  | cons pkg rest ih =>
    have hrest : ∀ p ∈ rest, G1 osVer p.SrcName = G2 osVer p.SrcName :=
      fun p hp => h p (List.mem_cons_of_mem _ hp)
    unfold Ubuntu.packageLoop
    rw [← h pkg (List.mem_cons_self _ _)]
    cases G1 osVer pkg.SrcName with
    | error err => rfl
    | ok advs =>
      simp only
      cases d.NewVersion (d.FormatSrcVersion pkg) with
      | error err => exact ih _ hrest
      | ok iv => exact ih _ hrest

/-! ## Claims -/

/-- C1: for both matchers, when the advisory-store lookup fails for at least one
package of the list, `Detect` returns an error together with the nil result list:
no record collected from earlier packages is returned. -/
theorem detect_aborts_on_lookup_failure (da : Alpine.Deps) (du : Ubuntu.Deps) (Get : Store)
    (osVer : String) (pkgs : List Package) :
    (LookupFails Get (truncateRelease osVer) (pkgs.map (·.Name)) →
      ∃ err, Alpine.Detect da Get osVer pkgs = ([], some err)) ∧
    (LookupFails Get osVer (pkgs.map (·.SrcName)) →
      ∃ err, Ubuntu.Detect du Get osVer pkgs = ([], some err)) :=
  ⟨fun h => alpine_packageLoop_error da Get _ pkgs [] h,
   fun h => ubuntu_packageLoop_error du Get _ pkgs [] h⟩

/-- Instance for C1: five packages, the lookup of the third one fails. -/
theorem detect_aborts_on_lookup_failure_witness :
    (LookupFails (Sample.failingStore [⟨"CVE-1", "1.2.4-r0"⟩]) (truncateRelease "3.10.2")
        ([Sample.openssl, Sample.zlib, Sample.broken, Sample.curl, Sample.libssl].map
          (·.Name)) ∧
      ∃ err, Alpine.Detect Sample.rpm (Sample.failingStore [⟨"CVE-1", "1.2.4-r0"⟩]) "3.10.2"
        [Sample.openssl, Sample.zlib, Sample.broken, Sample.curl, Sample.libssl] =
          ([], some err)) ∧
    (LookupFails (Sample.failingStore [⟨"CVE-1", "1.2.4-r0"⟩]) "18.04"
        ([Sample.openssl, Sample.zlib, Sample.broken, Sample.curl, Sample.libssl].map
          (·.SrcName)) ∧
      ∃ err, Ubuntu.Detect Sample.deb (Sample.failingStore [⟨"CVE-1", "1.2.4-r0"⟩]) "18.04"
        [Sample.openssl, Sample.zlib, Sample.broken, Sample.curl, Sample.libssl] =
          ([], some err)) :=
  have ha : LookupFails (Sample.failingStore [⟨"CVE-1", "1.2.4-r0"⟩]) (truncateRelease "3.10.2")
      ([Sample.openssl, Sample.zlib, Sample.broken, Sample.curl, Sample.libssl].map
        (·.Name)) := ⟨"broken", by decide, "db closed", rfl⟩
  have hu : LookupFails (Sample.failingStore [⟨"CVE-1", "1.2.4-r0"⟩]) "18.04"
      ([Sample.openssl, Sample.zlib, Sample.broken, Sample.curl, Sample.libssl].map
        (·.SrcName)) := ⟨"broken", by decide, "db closed", rfl⟩
  ⟨⟨ha, (detect_aborts_on_lookup_failure Sample.rpm Sample.deb _ "3.10.2" _).1 ha⟩,
   ⟨hu, (detect_aborts_on_lookup_failure Sample.rpm Sample.deb _ "18.04" _).2 hu⟩⟩

/-- C2 fails as stated: with every lookup succeeding and an advisory with an empty
fixed version returned for the package, the Alpine matcher reports nothing for an
installed `1.2.3-r0`, and the Ubuntu matcher reports nothing for a package whose
installed version does not parse. -/
theorem detect_empty_fixed_counterexample :
    ((⟨"CVE-2", ""⟩ : Advisory) ∈
        advisoriesOf (Sample.store [⟨"CVE-2", ""⟩]) (truncateRelease "3.10") Sample.openssl.Name ∧
      Alpine.Detect Sample.rpm (Sample.store [⟨"CVE-2", ""⟩]) "3.10" [Sample.openssl] =
        ([], none)) ∧
    ((⟨"CVE-2", ""⟩ : Advisory) ∈
        advisoriesOf (Sample.store [⟨"CVE-2", ""⟩]) "18.04" Sample.garbled.SrcName ∧
      Ubuntu.Detect Sample.deb (Sample.store [⟨"CVE-2", ""⟩]) "18.04" [Sample.garbled] =
        ([], none)) := by
  decide

/-- C2, amended: for the Ubuntu matcher, when all lookups succeed, a package of the
list whose formatted installed version parses gets a record for every advisory with an
empty fixed version, whatever the comparison function is; the Alpine matcher has no
case for an empty fixed version and reports such an advisory exactly when the installed
version is less than the version read from the empty string. -/
theorem detect_empty_fixed_version (da : Alpine.Deps) (du : Ubuntu.Deps) (Get : Store)
    (osVer : String) (pkgs : List Package) (p : Package) (a : Advisory)
    (hp : p ∈ pkgs) (hfix : a.FixedVersion = "") :
    (LookupsSucceed Get osVer (pkgs.map (·.SrcName)) →
      a ∈ advisoriesOf Get osVer p.SrcName →
      Ubuntu.parses du (du.FormatSrcVersion p) = true →
      ∀ lt : du.Version → du.Version → Bool,
        (⟨a.VulnerabilityID, p.Name, du.FormatSrcVersion p, ""⟩ : DetectedVulnerability) ∈
          (Ubuntu.Detect ⟨du.Version, du.NewVersion, lt, du.FormatSrcVersion⟩ Get osVer pkgs).1) ∧
    (LookupsSucceed Get (truncateRelease osVer) (pkgs.map (·.Name)) →
      a ∈ advisoriesOf Get (truncateRelease osVer) p.Name →
      ((⟨a.VulnerabilityID, p.Name, da.FormatVersion p, ""⟩ : DetectedVulnerability) ∈
          (Alpine.Detect da Get osVer pkgs).1 ↔
        da.LessThan (da.NewVersion (da.FormatVersion p)) (da.NewVersion "") = true)) := by
  constructor
  · intro h ha hparse lt
    have hm := (ubuntu_record_mem_detect ⟨du.Version, du.NewVersion, lt, du.FormatSrcVersion⟩
      Get osVer pkgs p a h hp ha).2
    simp only [record, hfix] at hm
    apply hm
    have hparse2 : Ubuntu.parses ⟨du.Version, du.NewVersion, lt, du.FormatSrcVersion⟩
        (du.FormatSrcVersion p) = true := hparse
    simp [Ubuntu.vulnerable, hparse2, hfix]
  · intro h ha
    have hm := alpine_record_mem_detect da Get osVer pkgs p a h hp ha
    simp only [record, hfix, Alpine.vulnerable] at hm
    exact hm

/-- Instance for C2 (amended): the sample package and an advisory without a fix. -/
theorem detect_empty_fixed_version_witness :
    (∀ lt : List Nat → List Nat → Bool,
      (⟨"CVE-2", "openssl", "1.2.3-r0", ""⟩ : DetectedVulnerability) ∈
        (Ubuntu.Detect ⟨List Nat, Sample.deb.NewVersion, lt, Sample.format⟩
          (Sample.store [⟨"CVE-2", ""⟩]) "18.04" [Sample.openssl]).1) ∧
    ((⟨"CVE-2", "openssl", "1.2.3-r0", ""⟩ : DetectedVulnerability) ∈
        (Alpine.Detect Sample.rpm (Sample.store [⟨"CVE-2", ""⟩]) "3.10" [Sample.openssl]).1 ↔
      Sample.lexLt (Sample.readNumbers "1.2.3-r0".data none) (Sample.readNumbers "".data none)
        = true) :=
  ⟨(detect_empty_fixed_version Sample.rpm Sample.deb (Sample.store [⟨"CVE-2", ""⟩]) "18.04"
      [Sample.openssl] Sample.openssl ⟨"CVE-2", ""⟩ (by decide) rfl).1
      (Sample.store_succeeds _ _ _) (by decide) (by decide),
   (detect_empty_fixed_version Sample.rpm Sample.deb (Sample.store [⟨"CVE-2", ""⟩]) "3.10"
      [Sample.openssl] Sample.openssl ⟨"CVE-2", ""⟩ (by decide) rfl).2
      (Sample.store_succeeds _ _ _) (by decide)⟩

/-- C3: for both matchers, when all lookups succeed, for a package of the list whose
formatted installed version parses and an advisory returned for it whose fixed version
is non-empty and parses, the output contains the record (advisory id, package name,
installed, fixed) if and only if installed is less than fixed under the comparator; with
a strict (irreflexive) comparator, installed equal to fixed is not reported. -/
theorem detect_reports_iff_less (da : Alpine.Deps) (du : Ubuntu.Deps) (Get : Store)
    (osVer : String) (pkgs : List Package) (p : Package) (a : Advisory) (hp : p ∈ pkgs) :
    (LookupsSucceed Get (truncateRelease osVer) (pkgs.map (·.Name)) →
      a ∈ advisoriesOf Get (truncateRelease osVer) p.Name →
      ((⟨a.VulnerabilityID, p.Name, da.FormatVersion p, a.FixedVersion⟩ :
            DetectedVulnerability) ∈ (Alpine.Detect da Get osVer pkgs).1 ↔
          da.LessThan (da.NewVersion (da.FormatVersion p)) (da.NewVersion a.FixedVersion)
            = true) ∧
        ((∀ v, da.LessThan v v = false) → da.FormatVersion p = a.FixedVersion →
          (⟨a.VulnerabilityID, p.Name, da.FormatVersion p, a.FixedVersion⟩ :
            DetectedVulnerability) ∉ (Alpine.Detect da Get osVer pkgs).1)) ∧
    (LookupsSucceed Get osVer (pkgs.map (·.SrcName)) →
      a ∈ advisoriesOf Get osVer p.SrcName →
      a.FixedVersion ≠ "" →
      ∀ iv fv, du.NewVersion (du.FormatSrcVersion p) = .ok iv →
        du.NewVersion a.FixedVersion = .ok fv →
        ((⟨a.VulnerabilityID, p.Name, du.FormatSrcVersion p, a.FixedVersion⟩ :
              DetectedVulnerability) ∈ (Ubuntu.Detect du Get osVer pkgs).1 ↔
            du.LessThan iv fv = true) ∧
          ((∀ v, du.LessThan v v = false) → du.FormatSrcVersion p = a.FixedVersion →
            (⟨a.VulnerabilityID, p.Name, du.FormatSrcVersion p, a.FixedVersion⟩ :
              DetectedVulnerability) ∉ (Ubuntu.Detect du Get osVer pkgs).1)) := by
  constructor
  · intro h ha
    have hm := alpine_record_mem_detect da Get osVer pkgs p a h hp ha
    simp only [record, Alpine.vulnerable] at hm
    refine ⟨hm, fun hirr heq => ?_⟩
    rw [hm, heq, hirr]
    simp
  · intro h ha hne iv fv hiv hfv
    have hm := ubuntu_record_mem_detect du Get osVer pkgs p a h hp ha
    simp only [record, Ubuntu.vulnerable, Ubuntu.parses, Ubuntu.less, hiv, hfv, isOk, lessOk,
      hne, decide_False, Bool.false_or, Bool.true_and] at hm
    refine ⟨hm, fun hirr heq => ?_⟩
    rw [hm]
    rw [heq, hfv] at hiv
    cases hiv
    rw [hirr]
    simp

/-- Instance for C3: installed `1.2.4-r0` against the fix `1.2.4-r0`. -/
theorem detect_reports_iff_less_witness :
    (((⟨"CVE-1", "openssl", "1.2.4-r0", "1.2.4-r0"⟩ : DetectedVulnerability) ∈
          (Alpine.Detect Sample.rpm (Sample.store [⟨"CVE-1", "1.2.4-r0"⟩]) "3.10.2"
            [Sample.patched]).1 ↔
        Sample.lexLt (Sample.readNumbers "1.2.4-r0".data none)
          (Sample.readNumbers "1.2.4-r0".data none) = true) ∧
      (⟨"CVE-1", "openssl", "1.2.4-r0", "1.2.4-r0"⟩ : DetectedVulnerability) ∉
        (Alpine.Detect Sample.rpm (Sample.store [⟨"CVE-1", "1.2.4-r0"⟩]) "3.10.2"
          [Sample.patched]).1) ∧
    (((⟨"CVE-1", "openssl", "1.2.4-r0", "1.2.4-r0"⟩ : DetectedVulnerability) ∈
          (Ubuntu.Detect Sample.deb (Sample.store [⟨"CVE-1", "1.2.4-r0"⟩]) "18.04"
            [Sample.patched]).1 ↔
        Sample.lexLt [1, 2, 4, 0] [1, 2, 4, 0] = true) ∧
      (⟨"CVE-1", "openssl", "1.2.4-r0", "1.2.4-r0"⟩ : DetectedVulnerability) ∉
        (Ubuntu.Detect Sample.deb (Sample.store [⟨"CVE-1", "1.2.4-r0"⟩]) "18.04"
          [Sample.patched]).1) :=
  ⟨(fun r => ⟨r.1, r.2 Sample.lexLt_irrefl rfl⟩)
      ((detect_reports_iff_less Sample.rpm Sample.deb (Sample.store [⟨"CVE-1", "1.2.4-r0"⟩])
        "3.10.2" [Sample.patched] Sample.patched ⟨"CVE-1", "1.2.4-r0"⟩ (by decide)).1
        (Sample.store_succeeds _ _ _) (by decide)),
   (fun r => ⟨r.1, r.2 Sample.lexLt_irrefl rfl⟩)
      ((detect_reports_iff_less Sample.rpm Sample.deb (Sample.store [⟨"CVE-1", "1.2.4-r0"⟩])
        "18.04" [Sample.patched] Sample.patched ⟨"CVE-1", "1.2.4-r0"⟩ (by decide)).2
        (Sample.store_succeeds _ _ _) (by decide) (by decide) [1, 2, 4, 0] [1, 2, 4, 0]
        rfl rfl)⟩

/-- C4: for the Ubuntu matcher, when all lookups succeed, `Detect` returns no error and
its result equals the result on the list with every package whose formatted installed
version does not parse removed. -/
theorem ubuntu_detect_skips_unparsable (d : Ubuntu.Deps) (Get : Store) (osVer : String)
    (pkgs : List Package) (h : LookupsSucceed Get osVer (pkgs.map (·.SrcName))) :
    (Ubuntu.Detect d Get osVer pkgs).2 = none ∧
    Ubuntu.Detect d Get osVer pkgs =
      Ubuntu.Detect d Get osVer
        (pkgs.filter (fun p => Ubuntu.parses d (d.FormatSrcVersion p))) := by
  unfold Ubuntu.Detect
  rw [ubuntu_packageLoop_ok d Get osVer pkgs [] h,
    ubuntu_packageLoop_ok d Get osVer _ [] (LookupsSucceed.filter Get osVer _ _ pkgs h),
    ubuntu_flatMap_filter_parses]
  exact ⟨rfl, rfl⟩

/-- Instance for C4: a package with an unparsable version between two parsable ones. -/
theorem ubuntu_detect_skips_unparsable_witness :
    LookupsSucceed (Sample.store [⟨"CVE-1", "1.2.4-r0"⟩, ⟨"CVE-2", ""⟩]) "18.04"
        ([Sample.openssl, Sample.garbled, Sample.libssl].map (·.SrcName)) ∧
    (Ubuntu.Detect Sample.deb (Sample.store [⟨"CVE-1", "1.2.4-r0"⟩, ⟨"CVE-2", ""⟩]) "18.04"
        [Sample.openssl, Sample.garbled, Sample.libssl]).2 = none ∧
    Ubuntu.Detect Sample.deb (Sample.store [⟨"CVE-1", "1.2.4-r0"⟩, ⟨"CVE-2", ""⟩]) "18.04"
        [Sample.openssl, Sample.garbled, Sample.libssl] =
      Ubuntu.Detect Sample.deb (Sample.store [⟨"CVE-1", "1.2.4-r0"⟩, ⟨"CVE-2", ""⟩]) "18.04"
        ([Sample.openssl, Sample.garbled, Sample.libssl].filter
          (fun p => Ubuntu.parses Sample.deb (Sample.deb.FormatSrcVersion p))) :=
  ⟨Sample.store_succeeds _ _ _,
   ubuntu_detect_skips_unparsable Sample.deb _ "18.04" _ (Sample.store_succeeds _ _ _)⟩

/-! ## The EOL tables -/

theorem mem_keys_of_lookup (l : List (String × Time)) (r : String) (e : Time)
    (h : l.lookup r = some e) : r ∈ l.map Prod.fst := by
  induction l with
  | nil => simp at h
  | cons kv rest ih =>
    obtain ⟨k, v⟩ := kv
    rw [List.lookup_cons] at h
    by_cases hk : r = k
    · simp [hk]
    · have hne : (r == k) = false := by simpa using hk
      rw [hne] at h
      simp only [List.map_cons, List.mem_cons]
      exact Or.inr (ih h)

theorem lookup_of_not_mem_keys (l : List (String × Time)) (r : String)
    (h : r ∉ l.map Prod.fst) : l.lookup r = none := by
  induction l with
  | nil => rfl
  | cons kv rest ih =>
    obtain ⟨k, v⟩ := kv
    simp only [List.map_cons, List.mem_cons, not_or] at h
    have hne : (r == k) = false := by simpa using h.1
    rw [List.lookup_cons, hne]
    exact ih h.2

theorem alpine_eolDates_keys_nodup : (Alpine.eolDates.map Prod.fst).Nodup := by decide

theorem ubuntu_eolDates_keys_nodup : (Ubuntu.eolDates.map Prod.fst).Nodup := by decide

theorem alpine_truncateRelease_key :
    ∀ r ∈ Alpine.eolDates.map Prod.fst, truncateRelease r = r := by decide

theorem alpine_isSupportedVersion_of_lookup (now : Time) (family r : String) (e : Time)
    (h : Alpine.eolDates.lookup r = some e) :
    Alpine.isSupportedVersion now family r = decide (now < e) := by
  have hk := alpine_truncateRelease_key r (mem_keys_of_lookup _ r e h)
  simp only [Alpine.isSupportedVersion, hk, h, Before]

theorem ubuntu_isSupportedVersion_of_lookup (now : Time) (family r : String) (e : Time)
    (h : Ubuntu.eolDates.lookup r = some e) :
    Ubuntu.isSupportedVersion now family r = decide (now < e) := by
  simp only [Ubuntu.isSupportedVersion, h, Before]

/-- C5: for both matchers and every release that is a key of the EOL table with EOL
instant `e`, `isSupportedVersion` at `now` is true exactly when `now` is before `e`:
true one second before `e`, false one second after `e`, false at `e` itself. -/
theorem isSupportedVersion_iff_before_eol (now : Time) (family r : String) (e : Time) :
    (Alpine.eolDates.lookup r = some e →
      (Alpine.isSupportedVersion now family r = true ↔ now < e) ∧
      Alpine.isSupportedVersion (e - second) family r = true ∧
      Alpine.isSupportedVersion (e + second) family r = false ∧
      Alpine.isSupportedVersion e family r = false) ∧
    (Ubuntu.eolDates.lookup r = some e →
      (Ubuntu.isSupportedVersion now family r = true ↔ now < e) ∧
      Ubuntu.isSupportedVersion (e - second) family r = true ∧
      Ubuntu.isSupportedVersion (e + second) family r = false ∧
      Ubuntu.isSupportedVersion e family r = false) := by
  constructor
  · intro h
    simp only [alpine_isSupportedVersion_of_lookup _ family r e h, second,
      decide_eq_true_eq, decide_eq_false_iff_not]
    exact ⟨trivial, Int.sub_lt_self e (by decide),
      Int.not_lt.mpr (Int.le_add_of_nonneg_right (by decide)), Int.lt_irrefl e⟩
  · intro h
    simp only [ubuntu_isSupportedVersion_of_lookup _ family r e h, second,
      decide_eq_true_eq, decide_eq_false_iff_not]
    exact ⟨trivial, Int.sub_lt_self e (by decide),
      Int.not_lt.mpr (Int.le_add_of_nonneg_right (by decide)), Int.lt_irrefl e⟩

/-- Instance for C5: Alpine 3.10 and Ubuntu 18.04 one hour before their EOL instants. -/
theorem isSupportedVersion_iff_before_eol_witness :
    (Alpine.eolDates.lookup "3.10" = some (Date 2021 5 1 23 59 59 0) ∧
      (Alpine.isSupportedVersion (Date 2021 5 1 22 59 59 0) "alpine" "3.10" = true ↔
        Date 2021 5 1 22 59 59 0 < Date 2021 5 1 23 59 59 0) ∧
      Alpine.isSupportedVersion (Date 2021 5 1 23 59 59 0 - second) "alpine" "3.10" = true ∧
      Alpine.isSupportedVersion (Date 2021 5 1 23 59 59 0 + second) "alpine" "3.10" = false ∧
      Alpine.isSupportedVersion (Date 2021 5 1 23 59 59 0) "alpine" "3.10" = false) ∧
    (Ubuntu.eolDates.lookup "18.04" = some (Date 2028 4 26 23 59 59 0) ∧
      (Ubuntu.isSupportedVersion (Date 2028 4 26 22 59 59 0) "ubuntu" "18.04" = true ↔
        Date 2028 4 26 22 59 59 0 < Date 2028 4 26 23 59 59 0) ∧
      Ubuntu.isSupportedVersion (Date 2028 4 26 23 59 59 0 - second) "ubuntu" "18.04" = true ∧
      Ubuntu.isSupportedVersion (Date 2028 4 26 23 59 59 0 + second) "ubuntu" "18.04" = false ∧
      Ubuntu.isSupportedVersion (Date 2028 4 26 23 59 59 0) "ubuntu" "18.04" = false) :=
  ⟨⟨by decide, (isSupportedVersion_iff_before_eol (Date 2021 5 1 22 59 59 0) "alpine" "3.10"
      (Date 2021 5 1 23 59 59 0)).1 (by decide)⟩,
   ⟨by decide, (isSupportedVersion_iff_before_eol (Date 2028 4 26 22 59 59 0) "ubuntu" "18.04"
      (Date 2028 4 26 23 59 59 0)).2 (by decide)⟩⟩

/-- C6: for both matchers, a release whose normalized form is not a key of the EOL
table is reported unsupported, as a plain `false`, at every instant and for every
family string. -/
theorem isSupportedVersion_unknown_release (now : Time) (family r : String) :
    (truncateRelease r ∉ Alpine.eolDates.map Prod.fst →
      Alpine.isSupportedVersion now family r = false) ∧
    (r ∉ Ubuntu.eolDates.map Prod.fst →
      Ubuntu.isSupportedVersion now family r = false) := by
  constructor
  · intro h
    simp only [Alpine.isSupportedVersion, lookup_of_not_mem_keys _ _ h]
  · intro h
    simp only [Ubuntu.isSupportedVersion, lookup_of_not_mem_keys _ _ h]

/-- Instance for C6: Alpine 3.11.1 and Ubuntu 20.04 are not in the tables. -/
theorem isSupportedVersion_unknown_release_witness :
    (truncateRelease "3.11.1" ∉ Alpine.eolDates.map Prod.fst ∧
      Alpine.isSupportedVersion (Date 2020 1 1 0 0 0 0) "alpine" "3.11.1" = false) ∧
    ("20.04" ∉ Ubuntu.eolDates.map Prod.fst ∧
      Ubuntu.isSupportedVersion (Date 2020 1 1 0 0 0 0) "ubuntu" "20.04" = false) :=
  ⟨⟨by decide, (isSupportedVersion_unknown_release (Date 2020 1 1 0 0 0 0) "alpine"
      "3.11.1").1 (by decide)⟩,
   ⟨by decide, (isSupportedVersion_unknown_release (Date 2020 1 1 0 0 0 0) "ubuntu"
      "20.04").2 (by decide)⟩⟩

/-- C7: the release truncation of the Alpine matcher removes, from a release with more
than one dot, exactly the last dot and the segment after it, and leaves a release with
zero or one dot unchanged; `3.10.2` gives `3.10`, `18.04.3` gives `18.04`, and `3.10`
and `18.04` stay as they are. -/
theorem truncateRelease_drops_last_segment (s : String) :
    (1 < Count s '.' →
      ∃ pre seg : List Char,
        s.data = pre ++ '.' :: seg ∧ '.' ∉ seg ∧ truncateRelease s = ⟨pre⟩) ∧
    (Count s '.' ≤ 1 → truncateRelease s = s) ∧
    truncateRelease "3.10.2" = "3.10" ∧ truncateRelease "18.04.3" = "18.04" ∧
    truncateRelease "3.10" = "3.10" ∧ truncateRelease "18.04" = "18.04" :=
  ⟨truncateRelease_of_lt s, truncateRelease_of_le s, by decide, by decide, by decide,
    by decide⟩

/-- Instance for C7: `3.10.2` has two dots, `edge` has none. -/
theorem truncateRelease_drops_last_segment_witness :
    (1 < Count "3.10.2" '.' ∧
      ∃ pre seg : List Char,
        "3.10.2".data = pre ++ '.' :: seg ∧ '.' ∉ seg ∧ truncateRelease "3.10.2" = ⟨pre⟩) ∧
    (Count "edge" '.' ≤ 1 ∧ truncateRelease "edge" = "edge") :=
  ⟨⟨by decide, (truncateRelease_drops_last_segment "3.10.2").1 (by decide)⟩,
   ⟨by decide, (truncateRelease_drops_last_segment "edge").2.1 (by decide)⟩⟩

/-- C8 fails as stated: `3.10.2.1` has four dot-separated segments and is truncated to
`3.10.2`, not to its first two segments `3.10`. -/
theorem truncateRelease_first_two_counterexample :
    3 ≤ (splitOnChar '.' "3.10.2.1".data).length ∧
    truncateRelease "3.10.2.1" = "3.10.2" ∧
    (truncateRelease "3.10.2.1").data ≠
      joinWith '.' ((splitOnChar '.' "3.10.2.1".data).take 2) := by
  decide

/-- C8, amended: for a release with three or more dot-separated segments the truncated
release is all segments but the last joined by dots; for a release with exactly three
segments this is the first two segments joined by a dot. -/
theorem truncateRelease_all_but_last (s : String) :
    (3 ≤ (splitOnChar '.' s.data).length →
      (truncateRelease s).data = joinWith '.' (splitOnChar '.' s.data).dropLast) ∧
    ((splitOnChar '.' s.data).length = 3 →
      (truncateRelease s).data = joinWith '.' ((splitOnChar '.' s.data).take 2)) := by
  have hcount : ∀ n, n ≤ (splitOnChar '.' s.data).length → n - 1 ≤ Count s '.' := by
    intro n hn
    rw [length_splitOnChar] at hn
    unfold Count
    omega
  constructor
  · intro h
    exact truncateRelease_segments s (by have := hcount 3 h; omega)
  · intro h
    rw [truncateRelease_segments s (by have := hcount 3 (by omega); omega),
      List.dropLast_eq_take, h]

/-- Instance for C8 (amended): `3.10.2` and `3.10.2.1`. -/
theorem truncateRelease_all_but_last_witness :
    (3 ≤ (splitOnChar '.' "3.10.2.1".data).length ∧
      (truncateRelease "3.10.2.1").data =
        joinWith '.' (splitOnChar '.' "3.10.2.1".data).dropLast) ∧
    ((splitOnChar '.' "3.10.2".data).length = 3 ∧
      (truncateRelease "3.10.2").data =
        joinWith '.' ((splitOnChar '.' "3.10.2".data).take 2)) :=
  ⟨⟨by decide, (truncateRelease_all_but_last "3.10.2.1").1 (by decide)⟩,
   ⟨by decide, (truncateRelease_all_but_last "3.10.2").2 (by decide)⟩⟩

/-- C9: for both matchers, when every lookup succeeds, `Detect` returns no error and its
output is the concatenation, in package order, of one block per package; a block lists,
in the store's advisory order, one record (advisory id, package name, formatted installed
version, fixed version) per advisory determined vulnerable, with nothing removed. -/
theorem detect_is_concatenation_of_blocks (da : Alpine.Deps) (du : Ubuntu.Deps) (Get : Store)
    (osVer : String) (pkgs : List Package) :
    (LookupsSucceed Get (truncateRelease osVer) (pkgs.map (·.Name)) →
      Alpine.Detect da Get osVer pkgs =
        (pkgs.flatMap (fun p =>
          ((advisoriesOf Get (truncateRelease osVer) p.Name).filter (fun a =>
              da.LessThan (da.NewVersion (da.FormatVersion p))
                (da.NewVersion a.FixedVersion))).map
            (fun a => ⟨a.VulnerabilityID, p.Name, da.FormatVersion p, a.FixedVersion⟩)),
          none)) ∧
    (LookupsSucceed Get osVer (pkgs.map (·.SrcName)) →
      Ubuntu.Detect du Get osVer pkgs =
        (pkgs.flatMap (fun p =>
          ((advisoriesOf Get osVer p.SrcName).filter (fun a =>
              Ubuntu.parses du (du.FormatSrcVersion p) &&
                (decide (a.FixedVersion = "") ||
                  Ubuntu.less du (du.FormatSrcVersion p) a.FixedVersion))).map
            (fun a => ⟨a.VulnerabilityID, p.Name, du.FormatSrcVersion p, a.FixedVersion⟩)),
          none)) := by
  constructor
  · intro h
    unfold Alpine.Detect
    rw [alpine_packageLoop_ok da Get _ pkgs [] h]
    rfl
  · intro h
    unfold Ubuntu.Detect
    rw [ubuntu_packageLoop_ok du Get _ pkgs [] h]
    rfl

/-- Instance for C9: two binary packages of one source package and a store that lists
the same vulnerability id twice. -/
theorem detect_is_concatenation_of_blocks_witness :
    Alpine.Detect Sample.rpm
        (Sample.store [⟨"CVE-1", "1.2.4-r0"⟩, ⟨"CVE-2", ""⟩, ⟨"CVE-1", "1.2.5-r0"⟩]) "3.10.2"
        [Sample.openssl, Sample.libssl] =
      ([⟨"CVE-1", "openssl", "1.2.3-r0", "1.2.4-r0"⟩,
        ⟨"CVE-1", "openssl", "1.2.3-r0", "1.2.5-r0"⟩], none) ∧
    Ubuntu.Detect Sample.deb
        (Sample.store [⟨"CVE-1", "1.2.4-r0"⟩, ⟨"CVE-2", ""⟩, ⟨"CVE-1", "1.2.5-r0"⟩]) "18.04"
        [Sample.openssl, Sample.libssl] =
      ([⟨"CVE-1", "openssl", "1.2.3-r0", "1.2.4-r0"⟩,
        ⟨"CVE-2", "openssl", "1.2.3-r0", ""⟩,
        ⟨"CVE-1", "openssl", "1.2.3-r0", "1.2.5-r0"⟩,
        ⟨"CVE-1", "libssl1.1", "1.1.1-1ubuntu2", "1.2.4-r0"⟩,
        ⟨"CVE-2", "libssl1.1", "1.1.1-1ubuntu2", ""⟩,
        ⟨"CVE-1", "libssl1.1", "1.1.1-1ubuntu2", "1.2.5-r0"⟩], none) :=
  ⟨((detect_is_concatenation_of_blocks Sample.rpm Sample.deb _ "3.10.2"
      [Sample.openssl, Sample.libssl]).1 (Sample.store_succeeds _ _ _)).trans (by decide),
   ((detect_is_concatenation_of_blocks Sample.rpm Sample.deb _ "18.04"
      [Sample.openssl, Sample.libssl]).2 (Sample.store_succeeds _ _ _)).trans (by decide)⟩

/-- C10: `Detect` consults the store only at the family's keys: two stores that agree at
(truncated release, package name) for every package give the same Alpine result, two
stores that agree at (release as given, source package name) give the same Ubuntu result,
and the Alpine result for release `3.10.2` is the result for `3.10`. -/
theorem detect_depends_on_family_keys (da : Alpine.Deps) (du : Ubuntu.Deps) (G1 G2 : Store)
    (osVer : String) (pkgs : List Package) :
    ((∀ p ∈ pkgs, G1 (truncateRelease osVer) p.Name = G2 (truncateRelease osVer) p.Name) →
      Alpine.Detect da G1 osVer pkgs = Alpine.Detect da G2 osVer pkgs) ∧
    ((∀ p ∈ pkgs, G1 osVer p.SrcName = G2 osVer p.SrcName) →
      Ubuntu.Detect du G1 osVer pkgs = Ubuntu.Detect du G2 osVer pkgs) ∧
    Alpine.Detect da G1 "3.10.2" pkgs = Alpine.Detect da G1 "3.10" pkgs := by
  refine ⟨fun h => alpine_packageLoop_congr da G1 G2 _ pkgs [] h,
    fun h => ubuntu_packageLoop_congr du G1 G2 _ pkgs [] h, ?_⟩
  unfold Alpine.Detect
  have h1 : truncateRelease "3.10.2" = "3.10" := by decide
  have h2 : truncateRelease "3.10" = "3.10" := by decide
  rw [h1, h2]

/-- Instance for C10: a store that answers every key and one that answers a single key. -/
theorem detect_depends_on_family_keys_witness :
    Alpine.Detect Sample.rpm (Sample.store [⟨"CVE-1", "1.2.4-r0"⟩]) "3.10.2" [Sample.openssl] =
      Alpine.Detect Sample.rpm (Sample.narrowStore [⟨"CVE-1", "1.2.4-r0"⟩]) "3.10.2"
        [Sample.openssl] ∧
    Ubuntu.Detect Sample.deb (Sample.store [⟨"CVE-1", "1.2.4-r0"⟩]) "3.10" [Sample.libssl] =
      Ubuntu.Detect Sample.deb (Sample.narrowStore [⟨"CVE-1", "1.2.4-r0"⟩]) "3.10"
        [Sample.libssl] :=
  ⟨(detect_depends_on_family_keys Sample.rpm Sample.deb (Sample.store [⟨"CVE-1", "1.2.4-r0"⟩])
      (Sample.narrowStore [⟨"CVE-1", "1.2.4-r0"⟩]) "3.10.2" [Sample.openssl]).1
      (fun p hp => by rw [List.mem_singleton.mp hp]; rfl),
   (detect_depends_on_family_keys Sample.rpm Sample.deb (Sample.store [⟨"CVE-1", "1.2.4-r0"⟩])
      (Sample.narrowStore [⟨"CVE-1", "1.2.4-r0"⟩]) "3.10" [Sample.libssl]).2.1
      (fun p hp => by rw [List.mem_singleton.mp hp]; rfl)⟩

/-! ## Advisories with an unparsable fixed version -/

theorem ubuntu_advisoryLoop_filter (d : Ubuntu.Deps) (pkg : Package) (installed : String)
    (iv : d.Version) (advs : List Advisory) (vulns : List DetectedVulnerability) :
    Ubuntu.advisoryLoop d pkg installed iv
        (advs.filter (fun a => !Ubuntu.unparsableFix d a)) vulns =
      Ubuntu.advisoryLoop d pkg installed iv advs vulns := by
  induction advs generalizing vulns with
  | nil => rfl
  | cons adv rest ih =>
    by_cases he : adv.FixedVersion = ""
    · rw [List.filter_cons_of_pos (by simp [Ubuntu.unparsableFix, he])]
      unfold Ubuntu.advisoryLoop
      simp only [he, if_true]
      exact ih _
    · cases hf : d.NewVersion adv.FixedVersion with
      | error err =>
        rw [List.filter_cons_of_neg
          (by simp [Ubuntu.unparsableFix, Ubuntu.parses, isOk, he, hf])]
        rw [ih]
        conv => rhs; unfold Ubuntu.advisoryLoop
        simp only [he, if_false, hf]
      | ok fv =>
        rw [List.filter_cons_of_pos
          (by simp [Ubuntu.unparsableFix, Ubuntu.parses, isOk, he, hf])]
        unfold Ubuntu.advisoryLoop
        simp only [he, if_false, hf]
        by_cases hl : d.LessThan iv fv = true
        · simp only [hl, if_true]
          exact ih _
        · simp only [hl]
          exact ih _

theorem ubuntu_packageLoop_filter (d : Ubuntu.Deps) (Get : Store) (osVer : String)
    (pkgs : List Package) (vulns : List DetectedVulnerability) :
    Ubuntu.packageLoop d (Ubuntu.withoutUnparsableFixes d Get) osVer pkgs vulns =
      Ubuntu.packageLoop d Get osVer pkgs vulns := by
  induction pkgs generalizing vulns with
  | nil => rfl
  | cons pkg rest ih =>
    unfold Ubuntu.packageLoop
    cases hg : Get osVer pkg.SrcName with
    | error err => simp [Ubuntu.withoutUnparsableFixes, hg]
    | ok advs =>
      simp only [Ubuntu.withoutUnparsableFixes, hg]
      cases d.NewVersion (d.FormatSrcVersion pkg) with
      | error err => exact ih _
      | ok iv =>
        simp only
        rw [ubuntu_advisoryLoop_filter]
        exact ih _

/-- C11: for the Ubuntu matcher, the result of `Detect` is unchanged when every advisory
with a non-empty fixed version that does not parse is removed from the store's answers
(on every package list, whether or not the lookups succeed): such an advisory is skipped
alone, and the advisories before and after it are still reported. -/
theorem ubuntu_detect_skips_unparsable_fix (d : Ubuntu.Deps) (Get : Store) (osVer : String)
    (pkgs : List Package) :
    Ubuntu.Detect d (Ubuntu.withoutUnparsableFixes d Get) osVer pkgs =
      Ubuntu.Detect d Get osVer pkgs ∧
    Ubuntu.Detect Sample.deb
        (Sample.store [⟨"CVE-1", "1.2.4-r0"⟩, ⟨"CVE-3", "unknown"⟩, ⟨"CVE-2", ""⟩,
          ⟨"CVE-4", "1.2.5-r0"⟩]) "18.04" [Sample.openssl] =
      ([⟨"CVE-1", "openssl", "1.2.3-r0", "1.2.4-r0"⟩, ⟨"CVE-2", "openssl", "1.2.3-r0", ""⟩,
        ⟨"CVE-4", "openssl", "1.2.3-r0", "1.2.5-r0"⟩], none) :=
  ⟨ubuntu_packageLoop_filter d Get osVer pkgs [], by decide⟩

/-! ## Truncation and the EOL table -/

theorem count_truncateRelease (s : String) (h : 1 < Count s '.') :
    Count (truncateRelease s) '.' + 1 = Count s '.' := by
  obtain ⟨pre, seg, hl, hseg, ht⟩ := truncateRelease_of_lt s h
  rw [ht]
  unfold Count
  rw [hl, List.count_append, List.count_cons_self, List.count_eq_zero_of_not_mem hseg]

theorem alpine_keys_one_dot : ∀ r ∈ Alpine.eolDates.map Prod.fst, Count r '.' ≤ 1 := by
  decide

theorem alpine_isSupportedVersion_many_dots (now : Time) (family v : String)
    (h : 2 < Count v '.') : Alpine.isSupportedVersion now family v = false := by
  have hc := count_truncateRelease v (by omega)
  have hnot : truncateRelease v ∉ Alpine.eolDates.map Prod.fst := by
    intro hmem
    have := alpine_keys_one_dot _ hmem
    omega
  simp only [Alpine.isSupportedVersion, lookup_of_not_mem_keys _ _ hnot]

theorem truncateRelease_idem_of_le (v : String) (h : Count v '.' ≤ 2) :
    truncateRelease (truncateRelease v) = truncateRelease v := by
  by_cases h1 : Count v '.' ≤ 1
  · rw [truncateRelease_of_le v h1, truncateRelease_of_le v h1]
  · have hc := count_truncateRelease v (by omega)
    exact truncateRelease_of_le _ (by omega)

/-- C12 fails as stated: at the start of 2020 the Alpine matcher reports `3.10.2.1`
unsupported and its truncation `3.10.2` supported. -/
theorem alpine_support_truncation_counterexample :
    truncateRelease "3.10.2.1" = "3.10.2" ∧
    Alpine.isSupportedVersion (Date 2020 1 1 0 0 0 0) "alpine" "3.10.2.1" = false ∧
    Alpine.isSupportedVersion (Date 2020 1 1 0 0 0 0) "alpine" (truncateRelease "3.10.2.1")
      = true := by
  decide

/-- C12, amended: for the Alpine matcher and a release with at most two dots, the support
check gives the same answer for the release and for its truncation, at every instant and
for every family string; a release with three or more dots is reported unsupported at
every instant. -/
theorem alpine_support_truncation_invariant (now : Time) (family v : String) :
    (Count v '.' ≤ 2 →
      Alpine.isSupportedVersion now family v =
        Alpine.isSupportedVersion now family (truncateRelease v)) ∧
    (2 < Count v '.' → Alpine.isSupportedVersion now family v = false) := by
  constructor
  · intro h
    simp only [Alpine.isSupportedVersion, truncateRelease_idem_of_le v h]
  · exact alpine_isSupportedVersion_many_dots now family v

/-- Instance for C12 (amended): `3.10.2` against `3.10`, and `3.10.2.1`. -/
theorem alpine_support_truncation_invariant_witness :
    (Count "3.10.2" '.' ≤ 2 ∧
      Alpine.isSupportedVersion (Date 2020 1 1 0 0 0 0) "alpine" "3.10.2" =
        Alpine.isSupportedVersion (Date 2020 1 1 0 0 0 0) "alpine" (truncateRelease "3.10.2")) ∧
    (2 < Count "3.10.2.1" '.' ∧
      Alpine.isSupportedVersion (Date 2020 1 1 0 0 0 0) "alpine" "3.10.2.1" = false) :=
  ⟨⟨by decide, (alpine_support_truncation_invariant (Date 2020 1 1 0 0 0 0) "alpine"
      "3.10.2").1 (by decide)⟩,
   ⟨by decide, (alpine_support_truncation_invariant (Date 2020 1 1 0 0 0 0) "alpine"
      "3.10.2.1").2 (by decide)⟩⟩

/-- C13: the Ubuntu matcher looks up exactly the given release string: the answer is true
exactly when the string itself is a key whose EOL instant is after `now`; so `18.04.3` is
reported unsupported at every instant, also at the start of 2020, when `18.04` is
reported supported. -/
theorem ubuntu_support_no_truncation (now : Time) (family r : String) :
    (Ubuntu.isSupportedVersion now family r = true ↔
      ∃ e, Ubuntu.eolDates.lookup r = some e ∧ now < e) ∧
    Ubuntu.isSupportedVersion now family "18.04.3" = false ∧
    Ubuntu.isSupportedVersion (Date 2020 1 1 0 0 0 0) family "18.04" = true := by
  refine ⟨?_, ?_, ?_⟩
  · cases h : Ubuntu.eolDates.lookup r with
    | none => simp [Ubuntu.isSupportedVersion, h]
    | some e => simp [Ubuntu.isSupportedVersion, h, Before]
  · have hnot : "18.04.3" ∉ Ubuntu.eolDates.map Prod.fst := by decide
    simp only [Ubuntu.isSupportedVersion, lookup_of_not_mem_keys _ _ hnot]
  · have hl : Ubuntu.eolDates.lookup "18.04" = some (Date 2028 4 26 23 59 59 0) := by decide
    simp only [Ubuntu.isSupportedVersion, hl]
    decide

/-! ## Success and failure of `Detect` -/

theorem lookupsSucceed_of_not_fails (Get : Store) (osVer : String) (names : List String)
    (h : ¬ LookupFails Get osVer names) : LookupsSucceed Get osVer names := by
  intro n hn
  cases hg : Get osVer n with
  | ok advs => exact ⟨advs, rfl⟩
  | error err => exact absurd ⟨n, hn, err, hg⟩ h

theorem not_lookupFails_of_succeed (Get : Store) (osVer : String) (names : List String)
    (h : LookupsSucceed Get osVer names) : ¬ LookupFails Get osVer names := by
  rintro ⟨n, hn, err, herr⟩
  obtain ⟨advs, hadvs⟩ := h n hn
  rw [hadvs] at herr
  cases herr

theorem lookupFails_append (Get : Store) (osVer : String) (xs ys : List String) :
    LookupFails Get osVer (xs ++ ys) ↔
      LookupFails Get osVer xs ∨ LookupFails Get osVer ys := by
  constructor
  · rintro ⟨n, hn, err, herr⟩
    rcases List.mem_append.mp hn with hx | hy
    · exact Or.inl ⟨n, hx, err, herr⟩
    · exact Or.inr ⟨n, hy, err, herr⟩
  · rintro (⟨n, hn, err, herr⟩ | ⟨n, hn, err, herr⟩)
    · exact ⟨n, List.mem_append.mpr (Or.inl hn), err, herr⟩
    · exact ⟨n, List.mem_append.mpr (Or.inr hn), err, herr⟩

theorem lookupsSucceed_append (Get : Store) (osVer : String) (xs ys : List String)
    (hx : LookupsSucceed Get osVer xs) (hy : LookupsSucceed Get osVer ys) :
    LookupsSucceed Get osVer (xs ++ ys) := by
  intro n hn
  rcases List.mem_append.mp hn with h | h
  · exact hx n h
  · exact hy n h

theorem alpine_fails_iff (d : Alpine.Deps) (Get : Store) (osVer : String)
    (pkgs : List Package) :
    fails (Alpine.Detect d Get osVer pkgs) ↔
      LookupFails Get (truncateRelease osVer) (pkgs.map (·.Name)) := by
  unfold fails Alpine.Detect
  constructor
  · intro h
    by_contra hn
    rw [alpine_packageLoop_ok d Get _ pkgs [] (lookupsSucceed_of_not_fails _ _ _ hn)] at h
    exact h rfl
  · intro h
    obtain ⟨msg, hmsg⟩ := alpine_packageLoop_error d Get _ pkgs [] h
    rw [hmsg]
    simp

theorem ubuntu_fails_iff (d : Ubuntu.Deps) (Get : Store) (osVer : String)
    (pkgs : List Package) :
    fails (Ubuntu.Detect d Get osVer pkgs) ↔
      LookupFails Get osVer (pkgs.map (·.SrcName)) := by
  unfold fails Ubuntu.Detect
  constructor
  · intro h
    by_contra hn
    rw [ubuntu_packageLoop_ok d Get _ pkgs [] (lookupsSucceed_of_not_fails _ _ _ hn)] at h
    exact h rfl
  · intro h
    obtain ⟨msg, hmsg⟩ := ubuntu_packageLoop_error d Get _ pkgs [] h
    rw [hmsg]
    simp

theorem alpine_lookupsSucceed_of_succeeds (d : Alpine.Deps) (Get : Store) (osVer : String)
    (pkgs : List Package) (h : succeeds (Alpine.Detect d Get osVer pkgs)) :
    LookupsSucceed Get (truncateRelease osVer) (pkgs.map (·.Name)) := by
  apply lookupsSucceed_of_not_fails
  intro hf
  exact (alpine_fails_iff d Get osVer pkgs).mpr hf h

theorem ubuntu_lookupsSucceed_of_succeeds (d : Ubuntu.Deps) (Get : Store) (osVer : String)
    (pkgs : List Package) (h : succeeds (Ubuntu.Detect d Get osVer pkgs)) :
    LookupsSucceed Get osVer (pkgs.map (·.SrcName)) := by
  apply lookupsSucceed_of_not_fails
  intro hf
  exact (ubuntu_fails_iff d Get osVer pkgs).mpr hf h

/-- The only error path of the Alpine `Detect` is the failed lookup: `NewVersion` of
`go-rpm-version` returns a version and no error, so whenever every advisory lookup
succeeds `Detect` returns no error, and it returns an error exactly when some lookup
fails. -/
theorem alpine_detect_fails_only_on_lookup (d : Alpine.Deps) (Get : Store) (osVer : String)
    (pkgs : List Package) :
    (LookupsSucceed Get (truncateRelease osVer) (pkgs.map (·.Name)) →
      succeeds (Alpine.Detect d Get osVer pkgs)) ∧
    (fails (Alpine.Detect d Get osVer pkgs) ↔
      LookupFails Get (truncateRelease osVer) (pkgs.map (·.Name))) := by
  refine ⟨fun h => ?_, alpine_fails_iff d Get osVer pkgs⟩
  unfold succeeds Alpine.Detect
  rw [alpine_packageLoop_ok d Get _ pkgs [] h]

/-- Instance: the Alpine `Detect` on a package with installed version `abc`. -/
theorem alpine_detect_fails_only_on_lookup_witness :
    LookupsSucceed (Sample.store [⟨"CVE-1", "1.2.4-r0"⟩]) (truncateRelease "3.10")
        ([Sample.malformed].map (·.Name)) ∧
    succeeds (Alpine.Detect Sample.rpm (Sample.store [⟨"CVE-1", "1.2.4-r0"⟩]) "3.10"
      [Sample.malformed]) :=
  ⟨Sample.store_succeeds _ _ _,
   (alpine_detect_fails_only_on_lookup Sample.rpm (Sample.store [⟨"CVE-1", "1.2.4-r0"⟩]) "3.10"
      [Sample.malformed]).1 (Sample.store_succeeds _ _ _)⟩

/-- C15: for both matchers, `Detect` distributes over concatenation of package lists: if
it succeeds on `ps` and on `qs` it succeeds on `ps ++ qs` with the two results
concatenated; it fails on `ps ++ qs` exactly when it fails on `ps` or on `qs`; on the
empty list it succeeds with an empty result. -/
theorem detect_distributes_over_append (da : Alpine.Deps) (du : Ubuntu.Deps) (Get : Store)
    (osVer : String) (ps qs : List Package) :
    ((succeeds (Alpine.Detect da Get osVer ps) → succeeds (Alpine.Detect da Get osVer qs) →
        Alpine.Detect da Get osVer (ps ++ qs) =
          ((Alpine.Detect da Get osVer ps).1 ++ (Alpine.Detect da Get osVer qs).1, none)) ∧
      (fails (Alpine.Detect da Get osVer (ps ++ qs)) ↔
        fails (Alpine.Detect da Get osVer ps) ∨ fails (Alpine.Detect da Get osVer qs)) ∧
      Alpine.Detect da Get osVer [] = ([], none)) ∧
    ((succeeds (Ubuntu.Detect du Get osVer ps) → succeeds (Ubuntu.Detect du Get osVer qs) →
        Ubuntu.Detect du Get osVer (ps ++ qs) =
          ((Ubuntu.Detect du Get osVer ps).1 ++ (Ubuntu.Detect du Get osVer qs).1, none)) ∧
      (fails (Ubuntu.Detect du Get osVer (ps ++ qs)) ↔
        fails (Ubuntu.Detect du Get osVer ps) ∨ fails (Ubuntu.Detect du Get osVer qs)) ∧
      Ubuntu.Detect du Get osVer [] = ([], none)) := by
  refine ⟨⟨fun hp hq => ?_, ?_, rfl⟩, ⟨fun hp hq => ?_, ?_, rfl⟩⟩
  · have h1 := alpine_lookupsSucceed_of_succeeds da Get osVer ps hp
    have h2 := alpine_lookupsSucceed_of_succeeds da Get osVer qs hq
    have h3 := lookupsSucceed_append Get _ _ _ h1 h2
    rw [← List.map_append] at h3
    unfold Alpine.Detect
    rw [alpine_packageLoop_ok da Get _ ps [] h1, alpine_packageLoop_ok da Get _ qs [] h2,
      alpine_packageLoop_ok da Get _ (ps ++ qs) [] h3]
    simp
  · rw [alpine_fails_iff, alpine_fails_iff, alpine_fails_iff, List.map_append,
      lookupFails_append]
  · have h1 := ubuntu_lookupsSucceed_of_succeeds du Get osVer ps hp
    have h2 := ubuntu_lookupsSucceed_of_succeeds du Get osVer qs hq
    have h3 := lookupsSucceed_append Get _ _ _ h1 h2
    rw [← List.map_append] at h3
    unfold Ubuntu.Detect
    rw [ubuntu_packageLoop_ok du Get _ ps [] h1, ubuntu_packageLoop_ok du Get _ qs [] h2,
      ubuntu_packageLoop_ok du Get _ (ps ++ qs) [] h3]
    simp
  · rw [ubuntu_fails_iff, ubuntu_fails_iff, ubuntu_fails_iff, List.map_append,
      lookupFails_append]

/-- Instance for C15: two one-package lists. -/
theorem detect_distributes_over_append_witness :
    Alpine.Detect Sample.rpm (Sample.store [⟨"CVE-1", "1.2.4-r0"⟩]) "3.10.2"
        ([Sample.openssl] ++ [Sample.malformed]) =
      ((Alpine.Detect Sample.rpm (Sample.store [⟨"CVE-1", "1.2.4-r0"⟩]) "3.10.2"
          [Sample.openssl]).1 ++
        (Alpine.Detect Sample.rpm (Sample.store [⟨"CVE-1", "1.2.4-r0"⟩]) "3.10.2"
          [Sample.malformed]).1, none) ∧
    Ubuntu.Detect Sample.deb (Sample.store [⟨"CVE-1", "1.2.4-r0"⟩]) "18.04"
        ([Sample.openssl] ++ [Sample.libssl]) =
      ((Ubuntu.Detect Sample.deb (Sample.store [⟨"CVE-1", "1.2.4-r0"⟩]) "18.04"
          [Sample.openssl]).1 ++
        (Ubuntu.Detect Sample.deb (Sample.store [⟨"CVE-1", "1.2.4-r0"⟩]) "18.04"
          [Sample.libssl]).1, none) :=
  ⟨(detect_distributes_over_append Sample.rpm Sample.deb (Sample.store [⟨"CVE-1", "1.2.4-r0"⟩])
      "3.10.2" [Sample.openssl] [Sample.malformed]).1.1
      (by unfold succeeds; decide) (by unfold succeeds; decide),
   (detect_distributes_over_append Sample.rpm Sample.deb (Sample.store [⟨"CVE-1", "1.2.4-r0"⟩])
      "18.04" [Sample.openssl] [Sample.libssl]).2.1
      (by unfold succeeds; decide) (by unfold succeeds; decide)⟩

/-! ## The support check over time and family -/

theorem before_mono (t1 t2 e : Time) (h : t1 ≤ t2) (hb : Before t2 e = true) :
    Before t1 e = true := by
  simp only [Before, decide_eq_true_eq] at hb ⊢
  exact Int.lt_of_le_of_lt h hb

/-- C16: for both matchers, support is monotone in time: for instants `t1 ≤ t2`, a
release supported at `t2` is supported at `t1`, and a release unsupported at `t1` is
unsupported at `t2`. -/
theorem isSupportedVersion_antitone (t1 t2 : Time) (family r : String) (h : t1 ≤ t2) :
    (Alpine.isSupportedVersion t2 family r = true →
      Alpine.isSupportedVersion t1 family r = true) ∧
    (Alpine.isSupportedVersion t1 family r = false →
      Alpine.isSupportedVersion t2 family r = false) ∧
    (Ubuntu.isSupportedVersion t2 family r = true →
      Ubuntu.isSupportedVersion t1 family r = true) ∧
    (Ubuntu.isSupportedVersion t1 family r = false →
      Ubuntu.isSupportedVersion t2 family r = false) := by
  have ha : Alpine.isSupportedVersion t2 family r = true →
      Alpine.isSupportedVersion t1 family r = true := by
    cases hl : Alpine.eolDates.lookup (truncateRelease r) with
    | none => simp [Alpine.isSupportedVersion, hl]
    | some e =>
      simp only [Alpine.isSupportedVersion, hl]
      exact before_mono t1 t2 e h
  have hu : Ubuntu.isSupportedVersion t2 family r = true →
      Ubuntu.isSupportedVersion t1 family r = true := by
    cases hl : Ubuntu.eolDates.lookup r with
    | none => simp [Ubuntu.isSupportedVersion, hl]
    | some e =>
      simp only [Ubuntu.isSupportedVersion, hl]
      exact before_mono t1 t2 e h
  refine ⟨ha, fun h1 => ?_, hu, fun h1 => ?_⟩
  · cases h2 : Alpine.isSupportedVersion t2 family r with
    | false => rfl
    | true => rw [ha h2] at h1; cases h1
  · cases h2 : Ubuntu.isSupportedVersion t2 family r with
    | false => rfl
    | true => rw [hu h2] at h1; cases h1

/-- Instance for C16: Alpine 3.10.2 and Ubuntu 18.04 at the start of 2020 and of 2021,
and Alpine 3.9 and Ubuntu 19.10 at the start of 2021 and of 2022. -/
theorem isSupportedVersion_antitone_witness :
    (Date 2020 1 1 0 0 0 0 ≤ Date 2021 1 1 0 0 0 0 ∧
      Alpine.isSupportedVersion (Date 2020 1 1 0 0 0 0) "alpine" "3.10.2" = true ∧
      Ubuntu.isSupportedVersion (Date 2020 1 1 0 0 0 0) "ubuntu" "18.04" = true) ∧
    (Date 2021 1 1 0 0 0 0 ≤ Date 2022 1 1 0 0 0 0 ∧
      Alpine.isSupportedVersion (Date 2022 1 1 0 0 0 0) "alpine" "3.9" = false ∧
      Ubuntu.isSupportedVersion (Date 2022 1 1 0 0 0 0) "ubuntu" "19.10" = false) :=
  ⟨⟨by decide,
    (isSupportedVersion_antitone (Date 2020 1 1 0 0 0 0) (Date 2021 1 1 0 0 0 0) "alpine"
      "3.10.2" (by decide)).1 (by decide),
    (isSupportedVersion_antitone (Date 2020 1 1 0 0 0 0) (Date 2021 1 1 0 0 0 0) "ubuntu"
      "18.04" (by decide)).2.2.1 (by decide)⟩,
   ⟨by decide,
    (isSupportedVersion_antitone (Date 2021 1 1 0 0 0 0) (Date 2022 1 1 0 0 0 0) "alpine"
      "3.9" (by decide)).2.1 (by decide),
    (isSupportedVersion_antitone (Date 2021 1 1 0 0 0 0) (Date 2022 1 1 0 0 0 0) "ubuntu"
      "19.10" (by decide)).2.2.2 (by decide)⟩⟩

/-- C17: for both matchers, the result of `isSupportedVersion` does not depend on the
family argument; the table consulted is the matcher's own, so the Alpine matcher called
with family `ubuntu` and release `18.04` answers false at every instant. -/
theorem isSupportedVersion_ignores_family (now : Time) (f1 f2 v : String) :
    Alpine.isSupportedVersion now f1 v = Alpine.isSupportedVersion now f2 v ∧
    Ubuntu.isSupportedVersion now f1 v = Ubuntu.isSupportedVersion now f2 v ∧
    Alpine.isSupportedVersion now "ubuntu" "18.04" = false := by
  refine ⟨rfl, rfl, ?_⟩
  have hnot : truncateRelease "18.04" ∉ Alpine.eolDates.map Prod.fst := by decide
  simp only [Alpine.isSupportedVersion, lookup_of_not_mem_keys _ _ hnot]

end Trivy
